import Mathlib

/-!
Verification of the snakemake WMS monitoring plugin
(`snakemake_monitoring_plugin_wms/__init__.py`).

The Python module is shallowly embedded:

* Python values occurring in log-event dictionaries are modelled by `PyVal`
  (strings, ints, bools, `None`, exception objects, and abstract job handles);
  Python dictionaries are association lists whose keys are unique by
  construction in Python.
* The stdlib `json` collaborator is modelled at its interface by an executable
  encoder `dumpsObj` (Python's default separators `", "` / `": "`) and a
  recursive-descent decoder `loadsObj`; string escaping covers the two
  round-trip-relevant escapes `\"` and `\\` (control characters travel as
  themselves inside the model string, which `loadsObj` accepts, so
  `loadsObj (dumpsObj d) = some d` holds exactly as it does for the real
  library).
* Effectful methods (`service_info`, `create_workflow`, `check_response`,
  `log_handler`) run in a state/abort monad `M`: the state accumulates the
  text written to `sys.stderr` and the list of HTTP requests issued; the
  result is either a normal value, `sys.exit c`, or an uncaught Python
  exception.  The HTTP transport is a collaborator: each call site receives
  the `Response` the transport would hand back.
* `_parse_message` additionally gets a store-level embedding
  (`parseMessageSt`) in which dictionaries live on a heap, so that the
  absence of mutation of the input dictionary is a theorem rather than a
  modelling artifact.
-/

namespace Wms

/-- A Python value as it occurs in the plugin's dictionaries.
`vexc cls m` is an exception object whose class is named `cls` and whose
`str()` is `m`; `vjob n` is an abstract job handle whose `str()` is `n`. -/
inductive PyVal where
  | vstr (s : String)
  | vint (n : Int)
  | vbool (b : Bool)
  | vnone
  | vexc (cls : String) (msg : String)
  | vjob (name : String)
deriving DecidableEq

/-- A JSON value of the shapes the plugin actually serializes
(Python `json` primitives; the plugin's payloads are flat objects). -/
inductive JVal where
  | jstr (s : String)
  | jint (n : Int)
  | jbool (b : Bool)
  | jnull
deriving DecidableEq

/-- Python `str()` of a value. -/
def pyStr : PyVal → String
  | .vstr s => s
  | .vint n => toString n
  | .vbool b => if b then "True" else "False"
  | .vnone => "None"
  | .vexc _ m => m
  | .vjob n => n

/-- Python truthiness.  An exception object has no `__bool__`/`__len__`,
so it is always truthy, whatever its message. -/
def pyTruthy : PyVal → Bool
  | .vstr s => s != ""
  | .vint n => n != 0
  | .vbool b => b
  | .vnone => false
  | .vexc _ _ => true
  | .vjob _ => true

/-- Python `value.__class__.__name__`. -/
def pyClass : PyVal → String
  | .vstr _ => "str"
  | .vint _ => "int"
  | .vbool _ => "bool"
  | .vnone => "NoneType"
  | .vexc c _ => c
  | .vjob _ => "Job"

/-- Conversion of a decoded JSON value back to a Python value. -/
def jvalToPy : JVal → PyVal
  | .jstr s => .vstr s
  | .jint n => .vint n
  | .jbool b => .vbool b
  | .jnull => .vnone

/-- Python `json`-serializability of a value: exception objects and job
handles are not serializable (`json.dumps` raises `TypeError`). -/
def pyToJ : PyVal → Option JVal
  | .vstr s => some (.jstr s)
  | .vint n => some (.jint n)
  | .vbool b => some (.jbool b)
  | .vnone => some .jnull
  | .vexc _ _ => none
  | .vjob _ => none

/-- The string built for the `exception` key:
`"{}: {}".format(v.__class__.__name__, v or "Exception")`.
`format` renders the chosen second argument with `str()`. -/
def excText (v : PyVal) : String :=
  pyClass v ++ ": " ++ (if pyTruthy v then pyStr v else "Exception")

/-- One iteration of the `_parse_message` loop: the value stored under `kv.1`.
The source reads `msg["exception"]` (not the loop variable) in the exception
branch; on a Python dict (unique keys) that lookup yields this entry's own
value, which is the `getD` default. -/
def entryVal (msg : List (String × PyVal)) (kv : String × PyVal) : PyVal :=
  if kv.1 = "job" then .vstr (pyStr kv.2)
  else if kv.1 = "exception" then .vstr (excText ((msg.lookup "exception").getD kv.2))
  else kv.2

/-- The `result` dictionary built by `_parse_message` before `json.dumps`. -/
def parseMessageDict (msg : List (String × PyVal)) : List (String × PyVal) :=
  msg.map (fun kv => (kv.1, entryVal msg kv))

/-- Dictionary-level `json.dumps` conversion; `none` models the
`TypeError` raised on a non-serializable value. -/
def toJDict : List (String × PyVal) → Option (List (String × JVal))
  | [] => some []
  | (k, v) :: rest =>
    match pyToJ v, toJDict rest with
    | some j, some d => some ((k, j) :: d)
    | _, _ => none

/-- The decimal digit character for `d < 10`. -/
def digitChar (d : Nat) : Char :=
  match d with
  | 0 => '0' | 1 => '1' | 2 => '2' | 3 => '3' | 4 => '4'
  | 5 => '5' | 6 => '6' | 7 => '7' | 8 => '8' | _ => '9'

/-- Numeric value of a digit character. -/
def digitVal (c : Char) : Nat := c.toNat - 48

/-- Decimal digits of a natural number, most significant first. -/
def natChars (n : Nat) : List Char :=
  if n < 10 then [digitChar n]
  else natChars (n / 10) ++ [digitChar (n % 10)]
decreasing_by exact Nat.div_lt_self (by omega) (by omega)

/-- Python `str()` of an integer, as characters. -/
def intChars (n : Int) : List Char :=
  if n < 0 then '-' :: natChars n.natAbs else natChars n.toNat

/-- JSON string escaping of one character (the round-trip-relevant escapes). -/
def escChar (c : Char) : List Char :=
  if c = '"' ∨ c = '\\' then ['\\', c] else [c]

/-- JSON string escaping of a character list. -/
def escList (s : List Char) : List Char :=
  s.foldr (fun c acc => escChar c ++ acc) []

/-- A JSON string literal, quotes included. -/
def encStrChars (s : String) : List Char :=
  '"' :: (escList s.data ++ ['"'])

/-- Encoding of one JSON value. -/
def encJ : JVal → List Char
  | .jstr s => encStrChars s
  | .jint n => intChars n
  | .jbool b => if b then ['t', 'r', 'u', 'e'] else ['f', 'a', 'l', 's', 'e']
  | .jnull => ['n', 'u', 'l', 'l']

/-- Encoding of one `"key": value` object entry (Python's `": "` separator). -/
def encEntry (kv : String × JVal) : List Char :=
  encStrChars kv.1 ++ (':' :: ' ' :: encJ kv.2)

/-- Encoding of the second and later entries, each preceded by `", "`. -/
def encObjRest : List (String × JVal) → List Char
  | [] => []
  | kv :: rest => ',' :: ' ' :: (encEntry kv ++ encObjRest rest)

/-- Encoding of the inside of a JSON object. -/
def encObjInner : List (String × JVal) → List Char
  | [] => []
  | kv :: rest => encEntry kv ++ encObjRest rest

/-- Encoder modelling `json.dumps` of a flat object with Python's default separators. -/
def dumpsObj (d : List (String × JVal)) : String :=
  ⟨'{' :: (encObjInner d ++ ['}'])⟩

/-- Model of `_parse_message(msg)`: the normalized dictionary serialized to a string;
`none` models the `TypeError` `json.dumps` raises on unserializable values. -/
def parseMessage (msg : List (String × PyVal)) : Option String :=
  (toJDict (parseMessageDict msg)).map dumpsObj

/-- Decoder for a JSON string body (opening quote already consumed):
returns the decoded characters and the input after the closing quote. -/
def parseStr : List Char → Option (List Char × List Char)
  | [] => none
  | c :: rest =>
    if c = '"' then some ([], rest)
    else if c = '\\' then
      match rest with
      | [] => none
      | e :: rest2 =>
        match parseStr rest2 with
        | none => none
        | some (s, r) => some (e :: s, r)
    else
      match parseStr rest with
      | none => none
      | some (s, r) => some (c :: s, r)
decreasing_by all_goals simp_wf <;> omega

/-- Decoder for a nonempty run of decimal digits. -/
def parseNat (cs : List Char) : Option (Nat × List Char) :=
  if (cs.takeWhile (fun c => c.isDigit)).isEmpty then none
  else some ((cs.takeWhile (fun c => c.isDigit)).foldl (fun a c => a * 10 + digitVal c) 0,
    cs.dropWhile (fun c => c.isDigit))

/-- Decoder for one JSON value. -/
def parseVal (cs : List Char) : Option (JVal × List Char) :=
  match cs with
  | [] => none
  | c :: rest =>
    if c = '"' then
      match parseStr rest with
      | none => none
      | some (s, r) => some (.jstr ⟨s⟩, r)
    else if c = 't' then
      match rest with
      | 'r' :: 'u' :: 'e' :: r => some (.jbool true, r)
      | _ => none
    else if c = 'f' then
      match rest with
      | 'a' :: 'l' :: 's' :: 'e' :: r => some (.jbool false, r)
      | _ => none
    else if c = 'n' then
      match rest with
      | 'u' :: 'l' :: 'l' :: r => some (.jnull, r)
      | _ => none
    else if c = '-' then
      match parseNat rest with
      | none => none
      | some (n, r) => some (.jint (-(n : Int)), r)
    else if c.isDigit then
      match parseNat (c :: rest) with
      | none => none
      | some (n, r) => some (.jint (n : Int), r)
    else none

/-- Decoder for the entries of a nonempty object, consuming the closing
brace; `fuel` bounds the number of entries. -/
def parseEntriesAux : Nat → List Char → Option (List (String × JVal) × List Char)
  | 0, _ => none
  | fuel + 1, cs =>
    match cs with
    | '"' :: cs1 =>
      match parseStr cs1 with
      | none => none
      | some (k, cs2) =>
        match cs2 with
        | ':' :: ' ' :: cs3 =>
          match parseVal cs3 with
          | none => none
          | some (v, cs4) =>
            match cs4 with
            | ',' :: ' ' :: cs5 =>
              match parseEntriesAux fuel cs5 with
              | none => none
              | some (d, r) => some (((⟨k⟩ : String), v) :: d, r)
            | '}' :: cs5 => some ([((⟨k⟩ : String), v)], cs5)
            | _ => none
        | _ => none
    | _ => none

/-- Decoder core of `json.loads` on a character list. -/
def loadsChars : List Char → Option (List (String × JVal))
  | [] => none
  | c :: cs =>
    if c = '{' then
      if cs = ['}'] then some []
      else
        match parseEntriesAux cs.length cs with
        | some (d, []) => some d
        | _ => none
    else none

/-- Decoder modelling `json.loads` of a flat object string. -/
def loadsObj (s : String) : Option (List (String × JVal)) :=
  loadsChars s.data

/-- An outbound HTTP request as issued by the plugin, with exactly the
arguments the corresponding `requests` call passes. -/
inductive HttpReq where
  | get (url : String) (headers : Option (List (String × String)))
  | getWithData (url : String) (headers : Option (List (String × String)))
      (params : List (String × PyVal)) (payload : List (String × PyVal))
  | put (url : String) (headers : List (String × String)) (payload : String)
  | post (url : String) (payload : List (String × PyVal))
      (headers : Option (List (String × String)))
deriving DecidableEq

/-- The URL of a request. -/
def reqUrl : HttpReq → String
  | .get u _ => u
  | .getWithData u _ _ _ => u
  | .put u _ _ => u
  | .post u _ _ => u

/-- A transport response: the status code and the JSON-decoded body
(`response.json()`). -/
structure Response where
  status_code : Int
  body : List (String × JVal)
deriving DecidableEq

/-- Observable process state: everything written to `sys.stderr` so far and
the requests handed to the transport so far. -/
structure ProcSt where
  stderr : String
  reqs : List HttpReq
deriving DecidableEq

/-- How a computation ends: normally, via `sys.exit c`, or with an uncaught
Python exception. -/
inductive Res (α : Type) where
  | ok (a : α)
  | exited (code : Int)
  | raised (exn : String)
deriving DecidableEq

/-- The effect monad of the embedding: state, plus abortion by `sys.exit`
or an uncaught exception. -/
def M (α : Type) : Type := ProcSt → ProcSt × Res α

/-- Return. -/
def Mpure (a : α) : M α := fun σ => (σ, .ok a)

/-- Sequencing; `sys.exit` and uncaught exceptions abort the continuation. -/
def Mseq (m : M α) (f : α → M β) : M β := fun σ =>
  match m σ with
  | (σ1, .ok a) => f a σ1
  | (σ1, .exited c) => (σ1, .exited c)
  | (σ1, .raised e) => (σ1, .raised e)

/-- Effect of `sys.stderr.write s`. -/
def writeStderr (s : String) : M Unit := fun σ =>
  (⟨σ.stderr ++ s, σ.reqs⟩, .ok ())

/-- Effect of `sys.exit c`. -/
def sysExit (c : Int) : M α := fun σ => (σ, .exited c)

/-- An uncaught Python exception (e.g. `KeyError`, `TypeError`). -/
def raiseExn (e : String) : M α := fun σ => (σ, .raised e)

/-- Hand a request to the transport. -/
def recordReq (r : HttpReq) : M Unit := fun σ =>
  (⟨σ.stderr, σ.reqs ++ [r]⟩, .ok ())

/-- Model of `MonitoringProvider._headers`: `None`, unless the token is truthy, in
which case a bearer header.  `self.token` is `os.getenv("WMS_MONITOR_TOKEN")`,
so it is `None` when unset; an empty string is falsy. -/
def headersOf (token : Option String) : Option (List (String × String)) :=
  match token with
  | some t => if t = "" then none else some [("Authorization", "Bearer " ++ t)]
  | none => none

/-- Python `{**a, **b}` on dictionaries with unique keys. -/
def pyDictMerge (a b : List (String × String)) : List (String × String) :=
  a.map (fun kv => (kv.1, (b.lookup kv.1).getD kv.2)) ++
    b.filter (fun kv => (a.lookup kv.1).isNone)

/-- The headers of the workflow-name `PUT`: `{"Content-Type": "application/json"}`
when `_headers` is `None`, else the merge of `_headers` with it. -/
def putHeaders (token : Option String) : List (String × String) :=
  match headersOf token with
  | none => [("Content-Type", "application/json")]
  | some h => pyDictMerge h [("Content-Type", "application/json")]

/-- Model of `MonitoringProvider.check_response(response, endpoint)`. -/
def check_response (endpoint : String) (response : Response) : M Unit :=
  if response.status_code = 200 then Mpure ()
  else if response.status_code = 404 then
    Mseq (writeStderr ("The wms " ++ endpoint ++ " endpoint was not found"))
      (fun _ => sysExit (-1))
  else if response.status_code = 401 then
    Mseq (writeStderr "Authorization is required with a WMS_MONITOR_TOKEN in the environment")
      (fun _ => sysExit (-1))
  else if response.status_code = 500 then
    Mseq (writeStderr ("There was a server error when trying to access " ++ endpoint))
      (fun _ => sysExit (-1))
  else if response.status_code = 403 then
    Mseq (writeStderr ("Permission is denied to " ++ endpoint ++ "."))
      (fun _ => sysExit (-1))
  else
    writeStderr ("The " ++ endpoint ++ " response code " ++ toString response.status_code
      ++ " is not recognized.")

/-- Model of `MonitoringProvider.service_info`.  `resp` is the transport's answer to
the service-info `GET`; `os.linesep` is `"\n"`. -/
def service_info (token : Option String) (address : String) (resp : Response) : M Unit :=
  Mseq (recordReq (.get (address ++ "/api/service-info") (headersOf token))) (fun _ =>
  Mseq (if resp.status_code ≠ 200 then
          Mseq (writeStderr ("Problem with server: " ++ address ++ " " ++ "\n"))
            (fun _ => sysExit (-1))
        else Mpure ()) (fun _ =>
  if resp.body.lookup "status" ≠ some (.jstr "running") then
    Mseq (writeStderr ("The status of the server " ++ address
        ++ " is not in 'running' mode " ++ "\n"))
      (fun _ => sysExit (-1))
  else Mpure ()))

/-- Model of `MonitoringProvider.create_workflow`.  `self.metadata` is always `{}`
(so `command` is `None` and the reported workdir is `os.getcwd()`, the `cwd`
parameter) and `self.args` is always `{}`.  `r2` answers the creation `GET`,
`r3` the workflow-name `PUT`.  The returned dictionary is `self.server`. -/
def create_workflow (token : Option String) (address cwd : String)
    (r2 r3 : Response) : M (List (String × PyVal)) :=
  Mseq (recordReq (.getWithData (address ++ "/create_workflow") (headersOf token)
      [] [("command", .vnone), ("workdir", .vstr cwd)])) (fun _ =>
  match r2.body.lookup "id" with
  | none => raiseExn "KeyError"
  | some idv =>
    Mseq (check_response "/create_workflow" r2) (fun _ =>
    Mseq (recordReq (.put (address ++ "/api/workflow/" ++ pyStr (jvalToPy idv))
        (putHeaders token) (dumpsObj []))) (fun _ =>
    Mseq (check_response ("/api/workflow/" ++ pyStr (jvalToPy idv)) r3) (fun _ =>
    Mpure [("url", PyVal.vstr address), ("id", jvalToPy idv)]))))

/-- Model of `MonitoringProvider.__post_init__` after reading the token and address:
`service_info()` then `create_workflow()`. -/
def post_init (token : Option String) (address cwd : String)
    (r1 r2 r3 : Response) : M (List (String × PyVal)) :=
  Mseq (service_info token address r1) (fun _ =>
  create_workflow token address cwd r2 r3)

/-- Model of `MonitoringProvider.log_handler(msg)`.  `now` is `time.asctime()`;
`server` is `self.server` (whose `"url"` value is a string by construction);
`r4` answers the status `POST`. -/
def log_handler (token : Option String) (server : List (String × PyVal))
    (now : String) (msg : List (String × PyVal)) (r4 : Response) : M Unit :=
  let url := pyStr ((server.lookup "url").getD .vnone) ++ "/update_workflow_status"
  match parseMessage msg with
  | none => raiseExn "TypeError"
  | some m =>
    Mseq (recordReq (.post url
        [("msg", .vstr m), ("timestamp", .vstr now),
         ("id", (server.lookup "id").getD .vnone)] (headersOf token))) (fun _ =>
    check_response "/update_workflow_status" r4)

/-- One whole monitored run: startup followed by one log event. -/
def fullRun (token : Option String) (address cwd now : String)
    (msg : List (String × PyVal)) (r1 r2 r3 r4 : Response) : M Unit :=
  Mseq (post_init token address cwd r1 r2 r3) (fun server =>
  log_handler token server now msg r4)

/-- The initial process state: nothing written, nothing sent. -/
def initSt : ProcSt := ⟨"", []⟩

/-- Run a computation from the initial state. -/
def runM (m : M α) : ProcSt × Res α := m initSt

/-- Bool-valued substring test on character lists. -/
def pfxChars : List Char → List Char → Bool
  | [], _ => true
  | _ :: _, [] => false
  | a :: as, b :: bs => a == b && pfxChars as bs

/-- Does `n` occur as a contiguous sublist of the second argument? -/
def subChars (n : List Char) : List Char → Bool
  | [] => n.isEmpty
  | c :: t => pfxChars n (c :: t) || subChars n t

/-- Does the diagnostic `hay` mention `needle`? -/
def strMentions (needle hay : String) : Bool :=
  subChars needle.data hay.data

/-- Every request in a run uses the header set produced by `_headers`
(directly for `GET`/`POST`; merged with the JSON content type for the
workflow-name `PUT`). -/
def reqUsesHeaders (token : Option String) : HttpReq → Prop
  | .get _ h => h = headersOf token
  | .getWithData _ h _ _ => h = headersOf token
  | .put _ h _ => h = putHeaders token
  | .post _ _ h => h = headersOf token

/-- Trace invariance: running `m` only adds requests satisfying `P`. -/
def tracOk (P : HttpReq → Prop) (m : M α) : Prop :=
  ∀ σ : ProcSt, (∀ r ∈ σ.reqs, P r) → ∀ r ∈ (m σ).1.reqs, P r

/-- A heap of Python dictionaries, for the mutation-freedom claim. -/
abbrev Store : Type := List (List (String × PyVal))

/-- Python `d[k] = v`: update in place when the key exists, else append. -/
def dictSet (d : List (String × PyVal)) (k : String) (v : PyVal) :
    List (String × PyVal) :=
  if (d.lookup k).isSome then d.map (fun kv => if kv.1 = k then (k, v) else kv)
  else d ++ [(k, v)]

/-- Read the dictionary at address `a`. -/
def storeGet (σ : Store) (a : Nat) : List (String × PyVal) := σ.getD a []

/-- Model of `_parse_message` with its mutation made explicit: the input dictionary
lives at address `a`; `result = {}` allocates a fresh dictionary at the end
of the store, and each loop iteration performs `result[key] = ...` there. -/
def parseMessageSt (σ : Store) (a : Nat) : Store × Option String :=
  let msg := storeGet σ a
  let b := σ.length
  let σ1 : Store := σ ++ [[]]
  let σ2 : Store := msg.foldl
    (fun σc kv => σc.set b (dictSet (storeGet σc b) kv.1 (entryVal msg kv))) σ1
  (σ2, (toJDict (storeGet σ2 b)).map dumpsObj)

theorem Mseq_ok {α β : Type} (m : M α) (f : α → M β) (σ σ1 : ProcSt) (a : α)
    (h : m σ = (σ1, .ok a)) : Mseq m f σ = f a σ1 := by
  unfold Mseq
  rw [h]

theorem Mseq_exited {α β : Type} (m : M α) (f : α → M β) (σ σ1 : ProcSt) (c : Int)
    (h : m σ = (σ1, .exited c)) : Mseq m f σ = (σ1, .exited c) := by
  unfold Mseq
  rw [h]

theorem Mseq_raised {α β : Type} (m : M α) (f : α → M β) (σ σ1 : ProcSt) (e : String)
    (h : m σ = (σ1, .raised e)) : Mseq m f σ = (σ1, .raised e) := by
  unfold Mseq
  rw [h]

theorem pfxChars_self_append (n r : List Char) : pfxChars n (n ++ r) = true := by
  induction n with
  | nil => rfl
  | cons c t ih => simp [pfxChars, ih]

theorem subChars_of_pfx {n h : List Char} (hp : pfxChars n h = true) :
    subChars n h = true := by
  cases h with
  | nil =>
    cases n with
    | nil => rfl
    | cons a t => simp [pfxChars] at hp
  | cons c t => simp [subChars, hp]

theorem subChars_cons {n t : List Char} (c : Char) (hs : subChars n t = true) :
    subChars n (c :: t) = true := by
  simp [subChars, hs]

theorem subChars_append_left {n h : List Char} (l : List Char)
    (hs : subChars n h = true) : subChars n (l ++ h) = true := by
  induction l with
  | nil => simpa using hs
  | cons c t ih => simpa [List.cons_append] using subChars_cons c ih

theorem strMentions_of_data (m s : String) (l r : List Char)
    (h : s.data = l ++ (m.data ++ r)) : strMentions m s = true := by
  unfold strMentions
  rw [h]
  exact subChars_append_left l (subChars_of_pfx (pfxChars_self_append _ _))

theorem check_response_200 (e : String) (r : Response) (h : r.status_code = 200)
    (σ : ProcSt) : check_response e r σ = (σ, .ok ()) := by
  simp [check_response, Mpure, h]

theorem check_response_404 (e : String) (r : Response) (h : r.status_code = 404)
    (σ : ProcSt) :
    check_response e r σ =
      (⟨σ.stderr ++ ("The wms " ++ e ++ " endpoint was not found"), σ.reqs⟩,
        .exited (-1)) := by
  simp [check_response, Mseq, writeStderr, sysExit, h]

theorem check_response_401 (e : String) (r : Response) (h : r.status_code = 401)
    (σ : ProcSt) :
    check_response e r σ =
      (⟨σ.stderr ++ "Authorization is required with a WMS_MONITOR_TOKEN in the environment",
        σ.reqs⟩, .exited (-1)) := by
  simp [check_response, Mseq, writeStderr, sysExit, h]

theorem check_response_500 (e : String) (r : Response) (h : r.status_code = 500)
    (σ : ProcSt) :
    check_response e r σ =
      (⟨σ.stderr ++ ("There was a server error when trying to access " ++ e), σ.reqs⟩,
        .exited (-1)) := by
  simp [check_response, Mseq, writeStderr, sysExit, h]

theorem check_response_403 (e : String) (r : Response) (h : r.status_code = 403)
    (σ : ProcSt) :
    check_response e r σ =
      (⟨σ.stderr ++ ("Permission is denied to " ++ e ++ "."), σ.reqs⟩,
        .exited (-1)) := by
  simp [check_response, Mseq, writeStderr, sysExit, h]

theorem check_response_other (e : String) (r : Response)
    (h1 : r.status_code ≠ 200) (h2 : r.status_code ≠ 404) (h3 : r.status_code ≠ 401)
    (h4 : r.status_code ≠ 500) (h5 : r.status_code ≠ 403) (σ : ProcSt) :
    check_response e r σ =
      (⟨σ.stderr ++ ("The " ++ e ++ " response code " ++ toString r.status_code
          ++ " is not recognized."), σ.reqs⟩, .ok ()) := by
  simp [check_response, writeStderr, h1, h2, h3, h4, h5]

/-- C1, as frozen, is false: for status 401 the diagnostic is the fixed
token-remediation sentence and does not mention the endpoint name passed in
(here `/create_workflow`), although the process does terminate. -/
theorem c1_counterexample :
    (runM (check_response "/create_workflow" ⟨401, []⟩)).2 = .exited (-1) ∧
    strMentions "/create_workflow"
      (runM (check_response "/create_workflow" ⟨401, []⟩)).1.stderr = false := by
  decide

/-- C1 (amended): for every status code in `{404, 401, 403, 500}` and every
endpoint name, `check_response` writes a diagnostic to the error stream and
terminates the process with the non-zero exit code `-1`; the diagnostic
mentions the endpoint name for 404, 403 and 500, while for 401 it instead
mentions the `WMS_MONITOR_TOKEN` environment variable. -/
theorem c1_theorem (code : Int) (e : String) (body : List (String × JVal))
    (h : code = 404 ∨ code = 401 ∨ code = 403 ∨ code = 500) :
    (runM (check_response e ⟨code, body⟩)).2 = .exited (-1) ∧
    strMentions (if code = 401 then "WMS_MONITOR_TOKEN" else e)
      (runM (check_response e ⟨code, body⟩)).1.stderr = true := by
  rcases h with rfl | rfl | rfl | rfl
  · rw [runM, check_response_404 e ⟨404, body⟩ rfl initSt]
    refine ⟨rfl, ?_⟩
    simp only [show ((404 : Int) = 401) = False by simp, if_false]
    exact strMentions_of_data e _ (initSt.stderr.data ++ "The wms ".data)
      " endpoint was not found".data
      (by simp [String.data_append, List.append_assoc])
  · rw [runM, check_response_401 e ⟨401, body⟩ rfl initSt]
    refine ⟨rfl, ?_⟩
    rw [if_pos rfl]
    decide
  · rw [runM, check_response_403 e ⟨403, body⟩ rfl initSt]
    refine ⟨rfl, ?_⟩
    simp only [show ((403 : Int) = 401) = False by simp, if_false]
    exact strMentions_of_data e _ (initSt.stderr.data ++ "Permission is denied to ".data)
      ".".data (by simp [String.data_append, List.append_assoc])
  · rw [runM, check_response_500 e ⟨500, body⟩ rfl initSt]
    refine ⟨rfl, ?_⟩
    simp only [show ((500 : Int) = 401) = False by simp, if_false]
    exact strMentions_of_data e _
      (initSt.stderr.data ++ "There was a server error when trying to access ".data)
      [] (by simp [String.data_append, List.append_assoc])

/-- C1 witness: the amended theorem applied at status 404, endpoint `/x`. -/
theorem c1_witness :
    (runM (check_response "/x" ⟨404, []⟩)).2 = .exited (-1) ∧
    strMentions (if (404 : Int) = 401 then "WMS_MONITOR_TOKEN" else "/x")
      (runM (check_response "/x" ⟨404, []⟩)).1.stderr = true :=
  c1_theorem 404 "/x" [] (by decide)

/-- C2: for a status code outside `{200, 404, 401, 403, 500}`,
`check_response` appends the "response code not recognized" diagnostic to the
error stream and returns normally (no exit, no request); for status 200 it
returns immediately leaving the state untouched. -/
theorem c2_theorem (code : Int) (e : String) (body body2 : List (String × JVal))
    (σ : ProcSt)
    (h : code ≠ 200 ∧ code ≠ 404 ∧ code ≠ 401 ∧ code ≠ 403 ∧ code ≠ 500) :
    check_response e ⟨code, body⟩ σ =
      (⟨σ.stderr ++ ("The " ++ e ++ " response code " ++ toString code
          ++ " is not recognized."), σ.reqs⟩, .ok ()) ∧
    check_response e ⟨200, body2⟩ σ = (σ, .ok ()) := by
  obtain ⟨h1, h2, h3, h4, h5⟩ := h
  exact ⟨check_response_other e ⟨code, body⟩ h1 h2 h3 h5 h4 σ,
    check_response_200 e ⟨200, body2⟩ rfl σ⟩

theorem service_info_not200 (token : Option String) (address : String)
    (r : Response) (h : r.status_code ≠ 200) (σ : ProcSt) :
    service_info token address r σ =
      (⟨σ.stderr ++ ("Problem with server: " ++ address ++ " " ++ "\n"),
        σ.reqs ++ [.get (address ++ "/api/service-info") (headersOf token)]⟩,
        .exited (-1)) := by
  simp [service_info, Mseq, recordReq, writeStderr, sysExit, Mpure, h]

theorem service_info_not_running (token : Option String) (address : String)
    (r : Response) (h200 : r.status_code = 200)
    (hrun : r.body.lookup "status" ≠ some (.jstr "running")) (σ : ProcSt) :
    service_info token address r σ =
      (⟨σ.stderr ++ ("The status of the server " ++ address
          ++ " is not in 'running' mode " ++ "\n"),
        σ.reqs ++ [.get (address ++ "/api/service-info") (headersOf token)]⟩,
        .exited (-1)) := by
  simp [service_info, Mseq, recordReq, writeStderr, sysExit, Mpure, h200, hrun]

theorem service_info_ok (token : Option String) (address : String)
    (r : Response) (h200 : r.status_code = 200)
    (hrun : r.body.lookup "status" = some (.jstr "running")) (σ : ProcSt) :
    service_info token address r σ =
      (⟨σ.stderr, σ.reqs ++ [.get (address ++ "/api/service-info") (headersOf token)]⟩,
        .ok ()) := by
  simp [service_info, Mseq, recordReq, writeStderr, sysExit, Mpure, h200, hrun]

theorem append_ne_of_data_ne (a x y : String) (h : x.data ≠ y.data) :
    a ++ x ≠ a ++ y := by
  intro hc
  have hd := congrArg String.data hc
  rw [String.data_append, String.data_append] at hd
  exact h (List.append_cancel_left hd)

/-- C3, as frozen, is false: when the service-info body reports state
`"paused"`, the fatal diagnostic does not name the reported state. -/
theorem c3_counterexample :
    (runM (service_info none "http://h" ⟨200, [("status", .jstr "paused")]⟩)).2 =
      .exited (-1) ∧
    strMentions "paused"
      (runM (service_info none "http://h"
        ⟨200, [("status", .jstr "paused")]⟩)).1.stderr = false := by
  decide

/-- C3 (amended): when the service-info request returns status 200 but the
decoded body's `status` field is not the literal `"running"`, `service_info`
writes the fixed diagnostic `The status of the server <address> is not in
'running' mode `, which names the server address (but not the server's
reported state), and terminates the process with the non-zero exit code `-1`. -/
theorem c3_theorem (token : Option String) (address : String) (r : Response)
    (h200 : r.status_code = 200)
    (hrun : r.body.lookup "status" ≠ some (.jstr "running")) :
    (runM (service_info token address r)).2 = .exited (-1) ∧
    (runM (service_info token address r)).1.stderr =
      "The status of the server " ++ address ++ " is not in 'running' mode " ++ "\n" ∧
    strMentions address (runM (service_info token address r)).1.stderr = true := by
  rw [runM, service_info_not_running token address r h200 hrun initSt]
  refine ⟨rfl, rfl, ?_⟩
  exact strMentions_of_data address _ (initSt.stderr.data ++ "The status of the server ".data)
    (" is not in 'running' mode ".data ++ "\n".data)
    (by simp [String.data_append, List.append_assoc])

/-- C3 witness: the amended theorem applied to a body reporting `"paused"`. -/
theorem c3_witness :
    (runM (service_info none "http://h" ⟨200, [("status", .jstr "paused")]⟩)).2 =
      .exited (-1) ∧
    (runM (service_info none "http://h" ⟨200, [("status", .jstr "paused")]⟩)).1.stderr =
      "The status of the server " ++ "http://h" ++ " is not in 'running' mode " ++ "\n" ∧
    strMentions "http://h"
      (runM (service_info none "http://h"
        ⟨200, [("status", .jstr "paused")]⟩)).1.stderr = true :=
  c3_theorem none "http://h" ⟨200, [("status", .jstr "paused")]⟩ rfl (by decide)

/-- C6: when the service-info `GET` answers with any non-200 status, the
process exits with the non-zero code `-1` after a diagnostic naming the
address, and the request trace of the whole startup consists of that single
`GET`: in particular no request to `<address>/create_workflow` was issued. -/
theorem c6_theorem (token : Option String) (address cwd : String)
    (r1 r2 r3 : Response) (h : r1.status_code ≠ 200) :
    (runM (post_init token address cwd r1 r2 r3)).2 = .exited (-1) ∧
    ((-1 : Int) ≠ 0) ∧
    strMentions address (runM (post_init token address cwd r1 r2 r3)).1.stderr = true ∧
    (runM (post_init token address cwd r1 r2 r3)).1.reqs =
      [.get (address ++ "/api/service-info") (headersOf token)] ∧
    ∀ r ∈ (runM (post_init token address cwd r1 r2 r3)).1.reqs,
      reqUrl r ≠ address ++ "/create_workflow" := by
  have hrun : post_init token address cwd r1 r2 r3 initSt =
      (⟨initSt.stderr ++ ("Problem with server: " ++ address ++ " " ++ "\n"),
        initSt.reqs ++ [.get (address ++ "/api/service-info") (headersOf token)]⟩,
        .exited (-1)) := by
    unfold post_init
    exact Mseq_exited _ _ _ _ _ (service_info_not200 token address r1 h initSt)
  rw [runM, hrun]
  refine ⟨rfl, by decide, ?_, rfl, ?_⟩
  · exact strMentions_of_data address _
      (initSt.stderr.data ++ "Problem with server: ".data)
      (" ".data ++ "\n".data) (by simp [String.data_append, List.append_assoc])
  · intro r hr
    simp only [initSt, List.nil_append, List.mem_singleton] at hr
    subst hr
    simp only [reqUrl]
    exact append_ne_of_data_ne address _ _ (by decide)

/-- C6 witness: the theorem applied to a 500 service-info answer. -/
theorem c6_witness :
    (runM (post_init (some "tok") "http://h" "/cwd" ⟨500, []⟩
      ⟨200, [("id", .jstr "42")]⟩ ⟨200, []⟩)).2 = .exited (-1) ∧
    ((-1 : Int) ≠ 0) ∧
    strMentions "http://h" (runM (post_init (some "tok") "http://h" "/cwd" ⟨500, []⟩
      ⟨200, [("id", .jstr "42")]⟩ ⟨200, []⟩)).1.stderr = true ∧
    (runM (post_init (some "tok") "http://h" "/cwd" ⟨500, []⟩
      ⟨200, [("id", .jstr "42")]⟩ ⟨200, []⟩)).1.reqs =
      [.get ("http://h" ++ "/api/service-info") (headersOf (some "tok"))] ∧
    ∀ r ∈ (runM (post_init (some "tok") "http://h" "/cwd" ⟨500, []⟩
      ⟨200, [("id", .jstr "42")]⟩ ⟨200, []⟩)).1.reqs,
      reqUrl r ≠ "http://h" ++ "/create_workflow" :=
  c6_theorem (some "tok") "http://h" "/cwd" ⟨500, []⟩
    ⟨200, [("id", .jstr "42")]⟩ ⟨200, []⟩ (by decide)

theorem create_workflow_ok (token : Option String) (address cwd : String)
    (r2 r3 : Response) (idv : JVal) (hid : r2.body.lookup "id" = some idv)
    (h2 : r2.status_code = 200) (h3 : r3.status_code = 200) (σ : ProcSt) :
    create_workflow token address cwd r2 r3 σ =
      (⟨σ.stderr, σ.reqs ++
          [.getWithData (address ++ "/create_workflow") (headersOf token) []
            [("command", .vnone), ("workdir", .vstr cwd)],
           .put (address ++ "/api/workflow/" ++ pyStr (jvalToPy idv))
            (putHeaders token) (dumpsObj [])]⟩,
        .ok [("url", .vstr address), ("id", jvalToPy idv)]) := by
  unfold create_workflow
  simp only [hid]
  rw [Mseq_ok _ _ _ _ _ rfl]
  rw [Mseq_ok _ _ _ _ _ (check_response_200 "/create_workflow" r2 h2 _)]
  rw [Mseq_ok _ _ _ _ _ rfl]
  rw [Mseq_ok _ _ _ _ _
    (check_response_200 ("/api/workflow/" ++ pyStr (jvalToPy idv)) r3 h3 _)]
  simp [Mpure, recordReq, List.append_assoc]

/-- C7: when the `/create_workflow` response has status 200 and carries
`id: "42"`, and the subsequent `PUT` also has status 200, `create_workflow`
returns normally with a server mapping whose `url` is the configured address
and whose `id` is `"42"`. -/
theorem c7_theorem (token : Option String) (address cwd : String)
    (r2 r3 : Response) (hid : r2.body.lookup "id" = some (.jstr "42"))
    (h2 : r2.status_code = 200) (h3 : r3.status_code = 200) :
    ∃ server : List (String × PyVal),
      (runM (create_workflow token address cwd r2 r3)).2 = .ok server ∧
      server.lookup "url" = some (.vstr address) ∧
      server.lookup "id" = some (.vstr "42") := by
  refine ⟨[("url", .vstr address), ("id", .vstr "42")], ?_, rfl, rfl⟩
  rw [runM, create_workflow_ok token address cwd r2 r3 (.jstr "42") hid h2 h3 initSt]
  rfl

/-- C7 witness: the theorem applied to concrete 200/200 responses. -/
theorem c7_witness :
    ∃ server : List (String × PyVal),
      (runM (create_workflow (some "tok") "http://h" "/cwd"
        ⟨200, [("id", .jstr "42")]⟩ ⟨200, []⟩)).2 = .ok server ∧
      server.lookup "url" = some (.vstr "http://h") ∧
      server.lookup "id" = some (.vstr "42") :=
  c7_theorem (some "tok") "http://h" "/cwd" ⟨200, [("id", .jstr "42")]⟩ ⟨200, []⟩
    rfl rfl rfl

/-- C9: when the `/create_workflow` response body lacks an `id` key,
`create_workflow` raises `KeyError` whatever the status code: nothing is
written to the error stream (the status is never classified), no exit takes
place, and the only request issued is the creation `GET` (no `PUT`). -/
theorem c9_theorem (token : Option String) (address cwd : String)
    (r2 r3 : Response) (hid : r2.body.lookup "id" = none) :
    runM (create_workflow token address cwd r2 r3) =
      (⟨"", [.getWithData (address ++ "/create_workflow") (headersOf token) []
          [("command", .vnone), ("workdir", .vstr cwd)]]⟩,
        .raised "KeyError") := by
  rw [runM]
  unfold create_workflow
  simp only [hid]
  simp [Mseq, recordReq, raiseExn, initSt]

/-- C9 witness: the theorem applied to a 500 response with no `id`. -/
theorem c9_witness :
    runM (create_workflow none "http://h" "/cwd" ⟨500, []⟩ ⟨200, []⟩) =
      (⟨"", [.getWithData ("http://h" ++ "/create_workflow") (headersOf none) []
          [("command", .vnone), ("workdir", .vstr "/cwd")]]⟩,
        .raised "KeyError") :=
  c9_theorem none "http://h" "/cwd" ⟨500, []⟩ ⟨200, []⟩ rfl

theorem lookup_map_entryVal (msg l : List (String × PyVal)) (k : String) :
    (l.map (fun kv => (kv.1, entryVal msg kv))).lookup k =
      (l.lookup k).map (fun v => entryVal msg (k, v)) := by
  induction l with
  | nil => rfl
  | cons kv t ih =>
    obtain ⟨k0, v0⟩ := kv
    cases hbeq : k == k0 with
    | true =>
      have : k = k0 := eq_of_beq hbeq
      subst this
      simp [List.lookup, hbeq]
    | false => simp [List.lookup, hbeq, ih]

theorem lookup_parseMessageDict (msg : List (String × PyVal)) (k : String) :
    (parseMessageDict msg).lookup k =
      (msg.lookup k).map (fun v => entryVal msg (k, v)) :=
  lookup_map_entryVal msg msg k

/-- C4, as frozen, is false: an error object is truthy in Python whatever its
message, so `msg["exception"] or "Exception"` never substitutes the literal
`"Exception"` for an error object with an empty message — the normalized
value is `"ValueError: "`, which does not even contain `"Exception"`. -/
theorem c4_counterexample :
    (parseMessageDict [("exception", .vexc "ValueError" "")]).lookup "exception" =
      some (.vstr "ValueError: ") ∧
    strMentions "Exception" "ValueError: " = false := by
  decide

/-- C4 (amended): for every event mapping binding `exception` to an error
object with class name `cls` and message `m`, the normalized value is always
`cls ++ ": " ++ m` — also when `m` is empty (yielding `"<cls>: "`): the
literal `"Exception"` is substituted only when the bound value itself is
falsy, which an error object never is. -/
theorem c4_theorem (msg : List (String × PyVal)) (cls m : String)
    (h : msg.lookup "exception" = some (.vexc cls m)) :
    (parseMessageDict msg).lookup "exception" = some (.vstr (cls ++ ": " ++ m)) := by
  rw [lookup_parseMessageDict, h]
  simp [entryVal, h, excText, pyTruthy, pyClass, pyStr]

/-- C4 witness: the amended theorem at a one-entry mapping with a nonempty
message; the normalized value is `"ValueError: boom"`. -/
theorem c4_witness :
    (parseMessageDict [("exception", .vexc "ValueError" "boom")]).lookup "exception" =
      some (.vstr ("ValueError" ++ ": " ++ "boom")) :=
  c4_theorem [("exception", .vexc "ValueError" "boom")] "ValueError" "boom" rfl

theorem storeGet_set_ne (σ : Store) (a b : Nat) (d : List (String × PyVal))
    (h : b ≠ a) : storeGet (σ.set b d) a = storeGet σ a := by
  unfold storeGet
  rw [List.getD_eq_getElem?_getD, List.getD_eq_getElem?_getD,
    List.getElem?_set_ne h]

theorem storeGet_append_singleton (σ : Store) (a : Nat) (h : a < σ.length)
    (d : List (String × PyVal)) : storeGet (σ ++ [d]) a = storeGet σ a := by
  unfold storeGet
  rw [List.getD_eq_getElem?_getD, List.getD_eq_getElem?_getD,
    List.getElem?_append]
  simp [h]

/-- C10: `_parse_message` never mutates its input dictionary: in the
store-level embedding, the dictionary at the input address is unchanged
(same keys, same values) after the call; all writes go to the freshly
allocated `result` dictionary. -/
theorem c10_theorem (σ : Store) (a : Nat) (h : a < σ.length) :
    storeGet (parseMessageSt σ a).1 a = storeGet σ a := by
  have hne : σ.length ≠ a := by omega
  unfold parseMessageSt
  simp only []
  have hgen : ∀ (l : List (String × PyVal)) (σc : Store),
      storeGet σc a = storeGet σ a →
      storeGet (l.foldl (fun σc kv =>
        σc.set σ.length (dictSet (storeGet σc σ.length) kv.1
          (entryVal (storeGet σ a) kv))) σc) a = storeGet σ a := by
    intro l
    induction l with
    | nil => intro σc hc; exact hc
    | cons kv t ih =>
      intro σc hc
      exact ih _ (by rw [storeGet_set_ne _ _ _ _ hne]; exact hc)
  exact hgen _ _ (storeGet_append_singleton σ a h [])

theorem lookup_eq_none_of_keys (k : String) : ∀ (l : List (String × PyVal)),
    k ∉ l.map Prod.fst → l.lookup k = none := by
  intro l
  induction l with
  | nil => intro _; rfl
  | cons kv t ih =>
    intro hk
    obtain ⟨k0, v0⟩ := kv
    have h1 : ¬ k = k0 := fun h => hk (by simp [h])
    have hbeq : (k == k0) = false := beq_eq_false_iff_ne.mpr h1
    simp only [List.lookup, hbeq]
    exact ih (fun h => hk (by simp [h]))

theorem dictSet_append (acc : List (String × PyVal)) (k : String) (v : PyVal)
    (hk : k ∉ acc.map Prod.fst) : dictSet acc k v = acc ++ [(k, v)] := by
  unfold dictSet
  rw [lookup_eq_none_of_keys k acc hk]
  rfl

theorem storeGet_set_self (σ : Store) (b : Nat) (d : List (String × PyVal))
    (h : b < σ.length) : storeGet (σ.set b d) b = d := by
  unfold storeGet
  rw [List.getD_eq_getElem?_getD, List.getElem?_set_self (by simpa using h)]
  rfl

theorem storeGet_append_self (σ : Store) (d : List (String × PyVal)) :
    storeGet (σ ++ [d]) σ.length = d := by
  unfold storeGet
  rw [List.getD_eq_getElem?_getD, List.getElem?_append]
  simp

theorem foldl_result_dict (msg : List (String × PyVal)) (b : Nat) :
    ∀ (l : List (String × PyVal)) (σc : Store) (acc : List (String × PyVal)),
    storeGet σc b = acc → b < σc.length →
    (∀ kv ∈ l, kv.1 ∉ acc.map Prod.fst) → (l.map Prod.fst).Nodup →
    storeGet (l.foldl (fun σc kv =>
      σc.set b (dictSet (storeGet σc b) kv.1 (entryVal msg kv))) σc) b =
      acc ++ l.map (fun kv => (kv.1, entryVal msg kv)) := by
  intro l
  induction l with
  | nil =>
    intro σc acc hacc _ _ _
    simpa using hacc
  | cons kv t ih =>
    intro σc acc hacc hlen hdisj hnodup
    have hnd2 : kv.1 ∉ t.map Prod.fst ∧ (t.map Prod.fst).Nodup := by
      rw [List.map_cons, List.nodup_cons] at hnodup
      exact hnodup
    have hstep : storeGet (σc.set b (dictSet (storeGet σc b) kv.1
        (entryVal msg kv))) b = acc ++ [(kv.1, entryVal msg kv)] := by
      rw [storeGet_set_self _ _ _ hlen, hacc,
        dictSet_append acc kv.1 _ (hdisj kv (by simp))]
    rw [List.foldl_cons]
    rw [ih _ (acc ++ [(kv.1, entryVal msg kv)]) hstep
      (by rw [List.length_set]; exact hlen) ?hd ?hn]
    · simp
    case hd =>
      intro kv' hkv'
      simp only [List.map_append, List.map_cons, List.map_nil, List.mem_append,
        List.mem_singleton]
      rintro (h | h)
      · exact hdisj kv' (by simp [hkv']) h
      · exact hnd2.1 (h ▸ List.mem_map_of_mem Prod.fst hkv')
    case hn =>
      exact hnd2.2

/-- Coherence of the store-level embedding with the pure one: on a dictionary
with unique keys (every Python dict), `parseMessageSt` returns exactly
`_parse_message` of the dictionary at the input address. -/
theorem parseMessageSt_result (σ : Store) (a : Nat)
    (hnd : ((storeGet σ a).map Prod.fst).Nodup) :
    (parseMessageSt σ a).2 = parseMessage (storeGet σ a) := by
  unfold parseMessageSt
  simp only []
  rw [foldl_result_dict (storeGet σ a) σ.length (storeGet σ a) (σ ++ [[]]) []
    (storeGet_append_self σ []) (by simp) (by simp) hnd]
  rfl

/-- C10 witness: the theorem at a concrete one-dictionary store. -/
theorem c10_witness :
    storeGet (parseMessageSt [[("job", .vjob "x")]] 0).1 0 =
      storeGet [[("job", .vjob "x")]] 0 :=
  c10_theorem [[("job", .vjob "x")]] 0 (by decide)

theorem tracOk_Mseq {α β : Type} {P : HttpReq → Prop} {m : M α} {f : α → M β}
    (hm : tracOk P m) (hf : ∀ a, tracOk P (f a)) : tracOk P (Mseq m f) := by
  intro σ hσ r hr
  unfold Mseq at hr
  rcases hms : m σ with ⟨σ1, res⟩
  rw [hms] at hr
  have h1 : ∀ r' ∈ σ1.reqs, P r' := by
    intro r' hr'
    exact hm σ hσ r' (by rw [hms]; exact hr')
  cases res with
  | ok a => exact hf a σ1 h1 r hr
  | exited c => exact h1 r hr
  | raised e => exact h1 r hr

theorem tracOk_Mpure {α : Type} {P : HttpReq → Prop} (a : α) :
    tracOk P (Mpure a) := by
  intro σ hσ r hr
  exact hσ r hr

theorem tracOk_writeStderr {P : HttpReq → Prop} (s : String) :
    tracOk P (writeStderr s) := by
  intro σ hσ r hr
  exact hσ r hr

theorem tracOk_sysExit {α : Type} {P : HttpReq → Prop} (c : Int) :
    tracOk P (sysExit (α := α) c) := by
  intro σ hσ r hr
  exact hσ r hr

theorem tracOk_raiseExn {α : Type} {P : HttpReq → Prop} (e : String) :
    tracOk P (raiseExn (α := α) e) := by
  intro σ hσ r hr
  exact hσ r hr

theorem tracOk_recordReq {P : HttpReq → Prop} (req : HttpReq) (hP : P req) :
    tracOk P (recordReq req) := by
  intro σ hσ r hr
  simp only [recordReq, List.mem_append, List.mem_singleton] at hr
  rcases hr with hr | rfl
  · exact hσ r hr
  · exact hP

theorem tracOk_ite {α : Type} {P : HttpReq → Prop} (c : Prop) [Decidable c]
    {m m' : M α} (h1 : tracOk P m) (h2 : tracOk P m') :
    tracOk P (if c then m else m') := by
  by_cases hc : c
  · rw [if_pos hc]; exact h1
  · rw [if_neg hc]; exact h2

theorem tracOk_check_response {P : HttpReq → Prop} (e : String) (r : Response) :
    tracOk P (check_response e r) := by
  unfold check_response
  refine tracOk_ite _ (tracOk_Mpure ()) ?_
  refine tracOk_ite _ (tracOk_Mseq (tracOk_writeStderr _) fun _ => tracOk_sysExit _) ?_
  refine tracOk_ite _ (tracOk_Mseq (tracOk_writeStderr _) fun _ => tracOk_sysExit _) ?_
  refine tracOk_ite _ (tracOk_Mseq (tracOk_writeStderr _) fun _ => tracOk_sysExit _) ?_
  exact tracOk_ite _ (tracOk_Mseq (tracOk_writeStderr _) fun _ => tracOk_sysExit _)
    (tracOk_writeStderr _)

theorem tracOk_service_info (token : Option String) (address : String)
    (r : Response) : tracOk (reqUsesHeaders token) (service_info token address r) := by
  unfold service_info
  refine tracOk_Mseq (tracOk_recordReq _ rfl) fun _ => ?_
  refine tracOk_Mseq (tracOk_ite _
    (tracOk_Mseq (tracOk_writeStderr _) fun _ => tracOk_sysExit _)
    (tracOk_Mpure ())) fun _ => ?_
  exact tracOk_ite _
    (tracOk_Mseq (tracOk_writeStderr _) fun _ => tracOk_sysExit _)
    (tracOk_Mpure ())

theorem tracOk_create_workflow (token : Option String) (address cwd : String)
    (r2 r3 : Response) :
    tracOk (reqUsesHeaders token) (create_workflow token address cwd r2 r3) := by
  unfold create_workflow
  refine tracOk_Mseq (tracOk_recordReq _ rfl) fun _ => ?_
  cases r2.body.lookup "id" with
  | none => exact tracOk_raiseExn _
  | some idv =>
    refine tracOk_Mseq (tracOk_check_response _ _) fun _ => ?_
    refine tracOk_Mseq (tracOk_recordReq _ rfl) fun _ => ?_
    exact tracOk_Mseq (tracOk_check_response _ _) fun _ => tracOk_Mpure _

theorem tracOk_post_init (token : Option String) (address cwd : String)
    (r1 r2 r3 : Response) :
    tracOk (reqUsesHeaders token) (post_init token address cwd r1 r2 r3) := by
  unfold post_init
  exact tracOk_Mseq (tracOk_service_info token address r1) fun _ =>
    tracOk_create_workflow token address cwd r2 r3

theorem tracOk_log_handler (token : Option String) (server : List (String × PyVal))
    (now : String) (msg : List (String × PyVal)) (r4 : Response) :
    tracOk (reqUsesHeaders token) (log_handler token server now msg r4) := by
  unfold log_handler
  cases parseMessage msg with
  | none => exact tracOk_raiseExn _
  | some m =>
    exact tracOk_Mseq (tracOk_recordReq _ rfl) fun _ => tracOk_check_response _ _

theorem tracOk_fullRun (token : Option String) (address cwd now : String)
    (msg : List (String × PyVal)) (r1 r2 r3 r4 : Response) :
    tracOk (reqUsesHeaders token) (fullRun token address cwd now msg r1 r2 r3 r4) := by
  unfold fullRun
  exact tracOk_Mseq (tracOk_post_init token address cwd r1 r2 r3) fun server =>
    tracOk_log_handler token server now msg r4

/-- C8: `_headers` yields the bearer header exactly when a token is
configured (a non-empty token string) and `None` when no token is configured;
and in any full run (startup plus one log event), every request handed to the
transport — `GET`, `PUT` or `POST` — carries the header set produced by
`_headers` (for the workflow-name `PUT`, merged with the JSON content type). -/
theorem c8_theorem (t : String) (ht : t ≠ "") (token : Option String)
    (address cwd now : String) (msg : List (String × PyVal))
    (r1 r2 r3 r4 : Response) :
    headersOf (some t) = some [("Authorization", "Bearer " ++ t)] ∧
    headersOf none = none ∧
    ∀ r ∈ (runM (fullRun token address cwd now msg r1 r2 r3 r4)).1.reqs,
      reqUsesHeaders token r := by
  refine ⟨by simp [headersOf, ht], rfl, ?_⟩
  intro r hr
  refine tracOk_fullRun token address cwd now msg r1 r2 r3 r4 initSt ?_ r hr
  intro r' hr'
  simp [initSt] at hr'

/-- C8 witness: the theorem at a concrete token and a concrete run. -/
theorem c8_witness :
    headersOf (some "tok") = some [("Authorization", "Bearer " ++ "tok")] ∧
    headersOf none = none ∧
    ∀ r ∈ (runM (fullRun (some "tok") "http://h" "/cwd" "NOW"
        [("level", .vstr "info")] ⟨200, [("status", .jstr "running")]⟩
        ⟨200, [("id", .jstr "42")]⟩ ⟨200, []⟩ ⟨200, []⟩)).1.reqs,
      reqUsesHeaders (some "tok") r :=
  c8_theorem "tok" (by decide) (some "tok") "http://h" "/cwd" "NOW"
    [("level", .vstr "info")] ⟨200, [("status", .jstr "running")]⟩
    ⟨200, [("id", .jstr "42")]⟩ ⟨200, []⟩ ⟨200, []⟩

theorem strMk_data (s : String) : (⟨s.data⟩ : String) = s := rfl

theorem digitChar_isDigit (d : Nat) (h : d < 10) : (digitChar d).isDigit = true := by
  interval_cases d <;> decide

theorem digitVal_digitChar (d : Nat) (h : d < 10) : digitVal (digitChar d) = d := by
  interval_cases d <;> decide

theorem natChars_digits (n : Nat) : ∀ c ∈ natChars n, c.isDigit = true := by
  induction n using natChars.induct with
  | case1 n h =>
    rw [natChars, if_pos h]
    intro c hc
    rw [List.mem_singleton] at hc
    subst hc
    exact digitChar_isDigit n h
  | case2 n h ih =>
    rw [natChars, if_neg h]
    intro c hc
    rcases List.mem_append.mp hc with hc | hc
    · exact ih c hc
    · rw [List.mem_singleton] at hc
      subst hc
      exact digitChar_isDigit _ (Nat.mod_lt _ (by omega))

theorem natChars_ne_nil (n : Nat) : natChars n ≠ [] := by
  rw [natChars]
  by_cases h : n < 10
  · rw [if_pos h]; simp
  · rw [if_neg h]; simp

theorem natChars_foldl (n : Nat) : ∀ a : Nat,
    (natChars n).foldl (fun a c => a * 10 + digitVal c) a =
      a * 10 ^ (natChars n).length + n := by
  induction n using natChars.induct with
  | case1 n h =>
    intro a
    rw [natChars, if_pos h]
    simp [List.foldl, digitVal_digitChar n h]
  | case2 n h ih =>
    intro a
    rw [natChars, if_neg h]
    rw [List.foldl_append, ih a]
    simp only [List.foldl, List.length_append, List.length_singleton]
    rw [digitVal_digitChar _ (Nat.mod_lt _ (by omega))]
    rw [pow_succ]
    have := Nat.div_add_mod n 10
    ring_nf
    omega

theorem takeWhile_append_all {p : Char → Bool} (l rest : List Char)
    (hl : ∀ c ∈ l, p c = true) :
    (l ++ rest).takeWhile p = l ++ rest.takeWhile p := by
  induction l with
  | nil => rfl
  | cons c t ih =>
    rw [List.cons_append, List.takeWhile_cons, hl c (by simp)]
    simp only [ite_true]
    rw [ih (fun c hc => hl c (by simp [hc])), List.cons_append]

theorem dropWhile_append_all {p : Char → Bool} (l rest : List Char)
    (hl : ∀ c ∈ l, p c = true) :
    (l ++ rest).dropWhile p = rest.dropWhile p := by
  induction l with
  | nil => rfl
  | cons c t ih =>
    rw [List.cons_append, List.dropWhile_cons, hl c (by simp)]
    simp only [ite_true]
    exact ih (fun c hc => hl c (by simp [hc]))

theorem takeWhile_head_false {p : Char → Bool} (rest : List Char)
    (hr : ∀ c, rest.head? = some c → p c = false) :
    rest.takeWhile p = [] ∧ rest.dropWhile p = rest := by
  cases rest with
  | nil => exact ⟨rfl, rfl⟩
  | cons c t =>
    have := hr c rfl
    rw [List.takeWhile_cons, List.dropWhile_cons, this]
    simp

theorem parseNat_natChars (m : Nat) (rest : List Char)
    (hr : ∀ c, rest.head? = some c → c.isDigit = false) :
    parseNat (natChars m ++ rest) = some (m, rest) := by
  obtain ⟨ht, hd⟩ := takeWhile_head_false (p := fun c => c.isDigit) rest hr
  unfold parseNat
  rw [takeWhile_append_all _ _ (natChars_digits m),
    dropWhile_append_all _ _ (natChars_digits m), ht, hd, List.append_nil]
  rw [List.isEmpty_eq_false_iff_exists_mem.mpr ?h]
  case h =>
    obtain ⟨c, cs, hc⟩ := List.exists_cons_of_ne_nil (natChars_ne_nil m)
    exact ⟨c, by rw [hc]; simp⟩
  simp only [Bool.false_eq_true, if_false]
  rw [natChars_foldl m 0]
  simp

theorem parseStr_escList (s rest : List Char) :
    parseStr (escList s ++ ('"' :: rest)) = some (s, rest) := by
  induction s with
  | nil =>
    show parseStr ('"' :: rest) = some ([], rest)
    rw [parseStr.eq_def]
    simp
  | cons c t ih =>
    have hesc : escList (c :: t) = escChar c ++ escList t := rfl
    rw [hesc, List.append_assoc]
    by_cases hc : c = '"' ∨ c = '\\'
    · rw [escChar, if_pos hc, List.cons_append, List.cons_append, List.nil_append]
      conv_lhs => rw [parseStr.eq_def]
      simp only [reduceIte]
      rw [if_neg (show ¬ ('\\' : Char) = '"' by decide)]
      rw [ih]
    · rw [escChar, if_neg hc, List.singleton_append]
      have h1 : ¬ c = '"' := fun h => hc (Or.inl h)
      have h2 : ¬ c = '\\' := fun h => hc (Or.inr h)
      conv_lhs => rw [parseStr.eq_def]
      simp only [h1, h2, if_false, ite_false]
      rw [ih]

theorem isDigit_ne_marks {c : Char} (h : c.isDigit = true) :
    ¬ c = '"' ∧ ¬ c = 't' ∧ ¬ c = 'f' ∧ ¬ c = 'n' ∧ ¬ c = '-' := by
  refine ⟨?_, ?_, ?_, ?_, ?_⟩ <;>
    (intro he; subst he; exact absurd h (by decide))

theorem parseVal_encJ (v : JVal) (rest : List Char)
    (hr : ∀ c, rest.head? = some c → c.isDigit = false) :
    parseVal (encJ v ++ rest) = some (v, rest) := by
  cases v with
  | jstr s =>
    show parseVal (('"' :: (escList s.data ++ ['"'])) ++ rest) = _
    rw [List.cons_append, List.append_assoc, List.singleton_append]
    rw [parseVal.eq_def]
    simp only [reduceIte]
    rw [parseStr_escList]
  | jint n =>
    rcases lt_or_ge n 0 with hn | hn
    · show parseVal (intChars n ++ rest) = _
      rw [intChars, if_pos hn, List.cons_append, parseVal.eq_def]
      simp only [reduceIte]
      rw [if_neg (show ¬ ('-' : Char) = '"' by decide),
        if_neg (show ¬ ('-' : Char) = 't' by decide),
        if_neg (show ¬ ('-' : Char) = 'f' by decide),
        if_neg (show ¬ ('-' : Char) = 'n' by decide)]
      rw [parseNat_natChars _ _ hr]
      have habs : -((n.natAbs : Int)) = n := by omega
      show some (JVal.jint (-((n.natAbs : Int))), rest) = some (JVal.jint n, rest)
      rw [habs]
    · show parseVal (intChars n ++ rest) = _
      rw [intChars, if_neg (not_lt.mpr hn)]
      obtain ⟨c, cs, hc⟩ := List.exists_cons_of_ne_nil (natChars_ne_nil n.toNat)
      have hcdig : c.isDigit = true := natChars_digits _ c (by rw [hc]; simp)
      obtain ⟨h1, h2, h3, h4, h5⟩ := isDigit_ne_marks hcdig
      rw [hc, List.cons_append, parseVal.eq_def]
      simp only [h1, h2, h3, h4, h5, if_false, hcdig, if_true]
      rw [← List.cons_append, ← hc, parseNat_natChars _ _ hr]
      show some (JVal.jint ((n.toNat : Nat) : Int), rest) = some (JVal.jint n, rest)
      rw [Int.toNat_of_nonneg hn]
  | jbool b =>
    cases b with
    | false =>
      show parseVal (('f' :: ['a', 'l', 's', 'e']) ++ rest) = _
      rw [List.cons_append, parseVal.eq_def]
      simp
    | true =>
      show parseVal (('t' :: ['r', 'u', 'e']) ++ rest) = _
      rw [List.cons_append, parseVal.eq_def]
      simp
  | jnull =>
    show parseVal (('n' :: ['u', 'l', 'l']) ++ rest) = _
    rw [List.cons_append, parseVal.eq_def]
    simp

theorem encObjRest_head (t : List (String × JVal)) :
    ∀ c, (encObjRest t ++ '}' :: []).head? = some c → c.isDigit = false := by
  cases t with
  | nil =>
    intro c hc
    simp [encObjRest] at hc
    subst hc
    decide
  | cons kv t2 =>
    intro c hc
    simp only [encObjRest, List.cons_append, List.head?] at hc
    rw [Option.some_inj] at hc
    subst hc
    decide

theorem parseEntriesAux_enc (d : List (String × JVal)) :
    ∀ (fuel : Nat), d ≠ [] → d.length ≤ fuel →
    parseEntriesAux fuel (encObjInner d ++ ('}' :: [])) = some (d, []) := by
  induction d with
  | nil => intro fuel hne _; exact absurd rfl hne
  | cons kv t ih =>
    intro fuel _ hfuel
    obtain ⟨f, rfl⟩ : ∃ f, fuel = f + 1 := by
      cases fuel with
      | zero => simp at hfuel
      | succ f => exact ⟨f, rfl⟩
    have hexp : encObjInner (kv :: t) ++ ('}' :: []) =
        '"' :: (escList kv.1.data ++ ('"' :: (':' :: ' ' ::
          (encJ kv.2 ++ (encObjRest t ++ '}' :: []))))) := by
      simp [encObjInner, encEntry, encStrChars, List.append_assoc]
    rw [hexp, parseEntriesAux]
    rw [parseStr_escList]
    simp only []
    rw [parseVal_encJ kv.2 _ (encObjRest_head t)]
    cases t with
    | nil =>
      simp only [encObjRest, List.nil_append]
    | cons kv2 t2 =>
      simp only [encObjRest, List.cons_append]
      have hrec : encEntry kv2 ++ encObjRest t2 ++ '}' :: [] =
          encObjInner (kv2 :: t2) ++ ('}' :: []) := rfl
      rw [hrec, ih f (by simp) (Nat.le_of_succ_le_succ hfuel)]

theorem one_le_length_encEntry (kv : String × JVal) :
    1 ≤ (encEntry kv).length := by
  simp [encEntry, encStrChars]

theorem length_le_encObjRest (t : List (String × JVal)) :
    t.length ≤ (encObjRest t).length := by
  induction t with
  | nil => simp [encObjRest]
  | cons kv t2 ih =>
    have := one_le_length_encEntry kv
    simp only [encObjRest, List.length_cons, List.length_append]
    omega

theorem length_le_encObjInner (d : List (String × JVal)) :
    d.length ≤ (encObjInner d).length := by
  cases d with
  | nil => simp [encObjInner]
  | cons kv t =>
    have h1 := one_le_length_encEntry kv
    have h2 := length_le_encObjRest t
    simp only [encObjInner, List.length_cons, List.length_append]
    omega

theorem loadsObj_dumpsObj (d : List (String × JVal)) :
    loadsObj (dumpsObj d) = some d := by
  cases d with
  | nil => rfl
  | cons kv t =>
    have hinner : encObjInner (kv :: t) =
        '"' :: (escList kv.1.data ++ ('"' :: (':' :: ' ' ::
          (encJ kv.2 ++ encObjRest t)))) := by
      simp [encObjInner, encEntry, encStrChars, List.append_assoc]
    show loadsChars ('{' :: (encObjInner (kv :: t) ++ ['}'])) = some (kv :: t)
    rw [loadsChars, if_pos rfl, if_neg ?hne]
    case hne =>
      rw [hinner]
      simp
    rw [parseEntriesAux_enc (kv :: t) _ (by simp) ?hf]
    case hf =>
      exact le_trans (length_le_encObjInner (kv :: t)) (by simp)

theorem toJDict_keys : ∀ (l : List (String × PyVal)) (d : List (String × JVal)),
    toJDict l = some d → d.map Prod.fst = l.map Prod.fst := by
  intro l
  induction l with
  | nil => intro d hd; cases hd; rfl
  | cons kv t ih =>
    intro d hd
    obtain ⟨k, v⟩ := kv
    rw [toJDict] at hd
    cases hj : pyToJ v with
    | none => rw [hj] at hd; exact absurd hd (by simp)
    | some j =>
      rw [hj] at hd
      cases ht : toJDict t with
      | none => rw [ht] at hd; exact absurd hd (by simp)
      | some d2 =>
        rw [ht] at hd
        simp only [Option.some_inj] at hd
        subst hd
        simp [ih d2 ht]

theorem toJDict_lookup : ∀ (l : List (String × PyVal)) (d : List (String × JVal))
    (k : String), toJDict l = some d → d.lookup k = (l.lookup k).bind pyToJ := by
  intro l
  induction l with
  | nil => intro d k hd; cases hd; rfl
  | cons kv t ih =>
    intro d k hd
    obtain ⟨k0, v⟩ := kv
    rw [toJDict] at hd
    cases hj : pyToJ v with
    | none => rw [hj] at hd; exact absurd hd (by simp)
    | some j =>
      rw [hj] at hd
      cases ht : toJDict t with
      | none => rw [ht] at hd; exact absurd hd (by simp)
      | some d2 =>
        rw [ht] at hd
        simp only [Option.some_inj] at hd
        subst hd
        cases hbeq : k == k0 with
        | true => simp [List.lookup, hbeq, hj]
        | false => simp [List.lookup, hbeq, ih d2 k ht]

theorem toJDict_total : ∀ (l : List (String × PyVal)),
    (∀ kv ∈ l, (pyToJ kv.2).isSome = true) → (toJDict l).isSome = true := by
  intro l
  induction l with
  | nil => intro _; rfl
  | cons kv t ih =>
    intro hall
    obtain ⟨k0, v⟩ := kv
    rw [toJDict]
    cases hj : pyToJ v with
    | none =>
      have := hall (k0, v) (by simp)
      rw [hj] at this
      simp at this
    | some j =>
      have ht := ih (fun kv hkv => hall kv (by simp [hkv]))
      cases htd : toJDict t with
      | none => rw [htd] at ht; simp at ht
      | some d2 => simp

theorem parseMessageDict_keys (msg : List (String × PyVal)) :
    (parseMessageDict msg).map Prod.fst = msg.map Prod.fst := by
  unfold parseMessageDict
  rw [List.map_map]
  rfl

theorem parseMessageDict_serializable (msg : List (String × PyVal))
    (hser : ∀ kv ∈ msg, kv.1 ≠ "job" → kv.1 ≠ "exception" →
      (pyToJ kv.2).isSome = true) :
    ∀ kv ∈ parseMessageDict msg, (pyToJ kv.2).isSome = true := by
  intro kv hkv
  obtain ⟨⟨k0, v0⟩, hmem, heq⟩ := List.mem_map.mp hkv
  rw [← heq]
  show (pyToJ (entryVal msg (k0, v0))).isSome = true
  by_cases hj : k0 = "job"
  · simp [entryVal, hj, pyToJ]
  · by_cases he : k0 = "exception"
    · simp [entryVal, hj, he, pyToJ]
    · simp only [entryVal, hj, he, if_false, ite_false]
      exact hser (k0, v0) hmem hj he

/-- C5: for any event mapping whose non-`job`, non-`exception` values are
serializable, `_parse_message` succeeds and JSON-decoding its output yields a
mapping with exactly the keys of the input, in which `job` carries the string
form of the input's `job` value, `exception` carries the exception-rule
string, and every other key carries (the JSON image of) its input value. -/
theorem c5_theorem (msg : List (String × PyVal))
    (hser : ∀ kv ∈ msg, kv.1 ≠ "job" → kv.1 ≠ "exception" →
      (pyToJ kv.2).isSome = true) :
    ∃ (s : String) (D : List (String × JVal)),
      parseMessage msg = some s ∧
      loadsObj s = some D ∧
      D.map Prod.fst = msg.map Prod.fst ∧
      (∀ v, msg.lookup "job" = some v →
        D.lookup "job" = some (.jstr (pyStr v))) ∧
      (∀ v, msg.lookup "exception" = some v →
        D.lookup "exception" = some (.jstr (excText v))) ∧
      (∀ k v, k ≠ "job" → k ≠ "exception" → msg.lookup k = some v →
        D.lookup k = pyToJ v) := by
  have htot := toJDict_total (parseMessageDict msg)
    (parseMessageDict_serializable msg hser)
  obtain ⟨D, hD⟩ := Option.isSome_iff_exists.mp htot
  refine ⟨dumpsObj D, D, ?_, loadsObj_dumpsObj D, ?_, ?_, ?_, ?_⟩
  · unfold parseMessage
    rw [hD]
    rfl
  · rw [toJDict_keys _ D hD, parseMessageDict_keys]
  · intro v hv
    rw [toJDict_lookup _ D "job" hD, lookup_parseMessageDict, hv]
    simp [entryVal, pyToJ]
  · intro v hv
    rw [toJDict_lookup _ D "exception" hD, lookup_parseMessageDict, hv]
    simp [entryVal, hv, pyToJ]
  · intro k v hk1 hk2 hv
    rw [toJDict_lookup _ D k hD, lookup_parseMessageDict, hv]
    simp [entryVal, hk1, hk2]

/-- C5 witness: the theorem at a concrete mapping holding a job handle, an
exception object and two serializable pass-through values. -/
theorem c5_witness :
    ∃ (s : String) (D : List (String × JVal)),
      parseMessage [("job", .vjob "j1"), ("exception", .vexc "ValueError" "boom"),
        ("level", .vstr "info"), ("count", .vint (-7))] = some s ∧
      loadsObj s = some D ∧
      D.map Prod.fst = [("job", PyVal.vjob "j1"),
        ("exception", PyVal.vexc "ValueError" "boom"),
        ("level", PyVal.vstr "info"), ("count", PyVal.vint (-7))].map Prod.fst ∧
      (∀ v, [("job", PyVal.vjob "j1"), ("exception", PyVal.vexc "ValueError" "boom"),
          ("level", PyVal.vstr "info"), ("count", PyVal.vint (-7))].lookup "job" = some v →
        D.lookup "job" = some (.jstr (pyStr v))) ∧
      (∀ v, [("job", PyVal.vjob "j1"), ("exception", PyVal.vexc "ValueError" "boom"),
          ("level", PyVal.vstr "info"), ("count", PyVal.vint (-7))].lookup "exception" = some v →
        D.lookup "exception" = some (.jstr (excText v))) ∧
      (∀ k v, k ≠ "job" → k ≠ "exception" →
        [("job", PyVal.vjob "j1"), ("exception", PyVal.vexc "ValueError" "boom"),
          ("level", PyVal.vstr "info"), ("count", PyVal.vint (-7))].lookup k = some v →
        D.lookup k = pyToJ v) :=
  c5_theorem [("job", .vjob "j1"), ("exception", .vexc "ValueError" "boom"),
    ("level", .vstr "info"), ("count", .vint (-7))] (by decide)

/-- C2 witness: the theorem applied at status 418, endpoint `/x`. -/
theorem c2_witness :
    check_response "/x" ⟨418, []⟩ initSt =
      (⟨initSt.stderr ++ ("The " ++ "/x" ++ " response code " ++ toString (418 : Int)
          ++ " is not recognized."), initSt.reqs⟩, .ok ()) ∧
    check_response "/x" ⟨200, []⟩ initSt = (initSt, .ok ()) :=
  c2_theorem 418 "/x" [] [] initSt (by decide)

end Wms
